import Mathlib

/-!
Verification of the getlantern/netx NAT64 address-translation and dial layer.

The repository carries several revisions of the same package side by side.
Throughout this file the suffix V1 marks the earlier revision of netx.go
(the one whose convertAddressDNS64 sits at lines 55-67, getNAT64Prefix at
lines 32-49, and whose Dial/DialTimeout/DialContext each retry once on a
network-unreachable error).  Unsuffixed names, or the suffix V2, model the
later revision (convertAddressDNS64 at lines 224-241, getNAT64Prefix at
lines 216-222, updateNAT64Prefix at lines 199-214, and the non-retrying
Dial/DialTimeout).  The P suffix models the minimal variant in
src/unnamed/part_002.

IP addresses are byte lists (net.IP); the NAT64 state is an
Option (List Nat), none standing for Go nil.  The string machinery
(SplitHostPort, JoinHostPort, ParseIP, IP.String) is transcribed from the
Go 1.14 net package, which is the version the go.mod of this repository
selects.
-/

/-- Index of the first occurrence of a character, counting from k. -/
def firstIdxAux (c : Char) : List Char → Nat → Option Nat
  | [], _ => none
  | d :: t, k => if d == c then some k else firstIdxAux c t (k + 1)

/-- Index of the first occurrence of a character (Go byteIndex). -/
def firstIdx (s : List Char) (c : Char) : Option Nat :=
  firstIdxAux c s 0

/-- Index of the last occurrence of a character (Go last). -/
def lastIdxAux (c : Char) : List Char → Nat → Option Nat → Option Nat
  | [], _, best => best
  | d :: t, k, best => lastIdxAux c t (k + 1) (if d == c then some k else best)

/-- Index of the last occurrence of a character in a character list. -/
def lastIdx (s : List Char) (c : Char) : Option Nat :=
  lastIdxAux c s 0 none

/-- Does the list start with the given pattern. -/
def startsWithL : List Char → List Char → Bool
  | _, [] => true
  | [], _ :: _ => false
  | c :: s, d :: p => c == d && startsWithL s p

/-- Does the list contain the pattern as a contiguous sublist. -/
def hasSub : List Char → List Char → Bool
  | [], p => startsWithL [] p
  | c :: t, p => startsWithL (c :: t) p || hasSub t p

/-- Go strings.Contains on Lean strings. -/
def containsSub (s pat : String) : Bool :=
  hasSub s.toList pat.toList

/-- Decimal digit value of a character, if it is a digit. -/
def digitVal (c : Char) : Option Nat :=
  if 48 ≤ c.toNat ∧ c.toNat ≤ 57 then some (c.toNat - 48) else none

/-- Hexadecimal digit value of a character, if it is one (Go xtoi cases). -/
def hexVal (c : Char) : Option Nat :=
  if 48 ≤ c.toNat ∧ c.toNat ≤ 57 then some (c.toNat - 48)
  else if 97 ≤ c.toNat ∧ c.toNat ≤ 102 then some (c.toNat - 87)
  else if 65 ≤ c.toNat ∧ c.toNat ≤ 70 then some (c.toNat - 55)
  else none

/-- Loop of Go net.dtoi: decimal conversion with the 0xFFFFFF overflow cutoff.
Returns (value, characters consumed, ok). -/
def dtoiAux : List Char → Nat → Nat → Nat × Nat × Bool
  | [], n, i => if i = 0 then (0, 0, false) else (n, i, true)
  | c :: rest, n, i =>
    match digitVal c with
    | some v =>
      if 0xFFFFFF ≤ n * 10 + v then (0xFFFFFF, i, false)
      else dtoiAux rest (n * 10 + v) (i + 1)
    | none => if i = 0 then (0, 0, false) else (n, i, true)

/-- Go net.dtoi. -/
def dtoi (s : List Char) : Nat × Nat × Bool :=
  dtoiAux s 0 0

/-- Loop of Go net.xtoi: hexadecimal conversion with the 0xFFFFFF cutoff. -/
def xtoiAux : List Char → Nat → Nat → Nat × Nat × Bool
  | [], n, i => if i = 0 then (0, 0, false) else (n, i, true)
  | c :: rest, n, i =>
    match hexVal c with
    | some v =>
      if 0xFFFFFF ≤ n * 16 + v then (0, i, false)
      else xtoiAux rest (n * 16 + v) (i + 1)
    | none => if i = 0 then (0, 0, false) else (n, i, true)

/-- Go net.xtoi. -/
def xtoi (s : List Char) : Nat × Nat × Bool :=
  xtoiAux s 0 0

/-- The 12-byte v4-in-v6 marker that net.IPv4 puts before the 4 address
bytes: ten zero bytes followed by 0xff 0xff. -/
def v4InV6Pre : List Nat :=
  [0, 0, 0, 0, 0, 0, 0, 0, 0, 0, 255, 255]

/-- Field loop of Go net.parseIPv4: read k dot-separated decimal fields,
each at most 255.  first marks the field that is not preceded by a dot. -/
def readV4Fields : Nat → Bool → List Char → Option (List Nat × List Char)
  | 0, _, s => some ([], s)
  | k + 1, first, s =>
    if s = [] then none
    else
      match (if first then some s else match s with | '.' :: t => some t | _ => none) with
      | none => none
      | some s2 =>
        match dtoi s2 with
        | (n, c, ok) =>
          if ok = false ∨ 255 < n then none
          else
            match readV4Fields k false (s2.drop c) with
            | none => none
            | some (rest, srem) => some (n :: rest, srem)

/-- Go net.parseIPv4: a dotted-quad literal parsed to the 16-byte form that
net.IPv4 returns (v4InV6Pre followed by the four bytes). -/
def parseIPv4 (s : List Char) : Option (List Nat) :=
  match readV4Fields 4 true s with
  | some (p, rem) => if rem = [] then some (v4InV6Pre ++ p) else none
  | none => none

/-- Go net.IP.To4 on a byte-list IP. -/
def to4 (ip : List Nat) : Option (List Nat) :=
  if ip.length = 4 then some ip
  else if ip.length = 16 ∧ ip.take 10 = List.replicate 10 0 ∧
      ip.getD 10 0 = 255 ∧ ip.getD 11 0 = 255 then some (ip.drop 12)
  else none

/-- Go net.IP.To16 on a byte-list IP. -/
def to16 (ip : List Nat) : Option (List Nat) :=
  if ip.length = 4 then some (v4InV6Pre ++ ip)
  else if ip.length = 16 then some ip
  else none

/-- Main loop of Go net.parseIPv6.  acc holds the bytes written so far
(Go's i is acc.length), ell the ellipsis position.  The result is the
accumulated bytes, the unconsumed characters and the ellipsis position;
none is a parse failure.  The loop body runs at most 8 times because every
iteration appends two bytes (or four and stops), so fuel 9 never runs out. -/
def parseIPv6Loop : Nat → List Char → List Nat → Option Nat →
    Option (List Nat × List Char × Option Nat)
  | 0, _, _, _ => none
  | fuel + 1, s, acc, ell =>
    if 16 ≤ acc.length then some (acc, s, ell)
    else
      match xtoi s with
      | (n, c, ok) =>
        if ok = false ∨ 0xFFFF < n then none
        else if c < s.length ∧ s.getD c ' ' = '.' then
          if (ell = none ∧ acc.length ≠ 12) ∨ 12 < acc.length then none
          else
            match parseIPv4 s with
            | none => none
            | some ip4 => some (acc ++ ip4.drop 12, [], ell)
        else
          match s.drop c with
          | [] => some (acc ++ [n / 256, n % 256], [], ell)
          | d :: rest =>
            if d ≠ ':' ∨ rest = [] then none
            else
              match rest with
              | ':' :: rest2 =>
                if ell.isSome then none
                else
                  match rest2 with
                  | [] => some (acc ++ [n / 256, n % 256], [], some (acc.length + 2))
                  | _ => parseIPv6Loop fuel rest2 (acc ++ [n / 256, n % 256])
                      (some (acc.length + 2))
              | _ => parseIPv6Loop fuel rest (acc ++ [n / 256, n % 256]) ell

/-- Tail of Go net.parseIPv6: reject leftover characters, expand the
ellipsis when fewer than 16 bytes were written, reject an ellipsis in a
full address. -/
def finishV6 : Option (List Nat × List Char × Option Nat) → Option (List Nat)
  | none => none
  | some (acc, s, ell) =>
    if s ≠ [] then none
    else if acc.length < 16 then
      match ell with
      | none => none
      | some e => some (acc.take e ++ List.replicate (16 - acc.length) 0 ++ acc.drop e)
    else
      match ell with
      | some _ => none
      | none => some acc

/-- Go net.parseIPv6. -/
def parseIPv6 (s : List Char) : Option (List Nat) :=
  if 2 ≤ s.length ∧ s.take 2 = [':', ':'] then
    if s.drop 2 = [] then some (List.replicate 16 0)
    else finishV6 (parseIPv6Loop 9 (s.drop 2) [] (some 0))
  else finishV6 (parseIPv6Loop 9 s [] none)

/-- Go net.splitHostZone: strip a zone after the last percent sign when it
is not at position zero. -/
def splitZone (s : List Char) : List Char × List Char :=
  match lastIdx s '%' with
  | some i => if 0 < i then (s.take i, s.drop (i + 1)) else (s, [])
  | none => (s, [])

/-- Go net.parseIPv6Zone, keeping only the address part. -/
def parseIPv6Zone (s : List Char) : Option (List Nat) :=
  parseIPv6 (splitZone s).1

/-- Scan of Go net.ParseIP: the first dot or colon decides between the
IPv4 and the IPv6 parser. -/
def parseIPScan (full : List Char) : List Char → Option (List Nat)
  | [] => none
  | c :: t =>
    if c = '.' then parseIPv4 full
    else if c = ':' then parseIPv6Zone full
    else parseIPScan full t

/-- Go net.ParseIP on a Lean string; none is Go's nil result. -/
def parseIP (s : String) : Option (List Nat) :=
  parseIPScan s.toList s.toList

/-- Go net.uitoa for one decimal number (fuel 10 covers every Nat that
occurs in an address byte). -/
def uitoaAux : Nat → Nat → List Char → List Char
  | 0, _, acc => acc
  | f + 1, n, acc =>
    if n < 10 then Char.ofNat (48 + n % 10) :: acc
    else uitoaAux f (n / 10) (Char.ofNat (48 + n % 10) :: acc)

/-- Decimal rendering of a byte value. -/
def uitoa (n : Nat) : List Char :=
  uitoaAux 10 n []

/-- Lowercase hex digit character. -/
def hexDigitChar (n : Nat) : Char :=
  if n < 10 then Char.ofNat (48 + n) else Char.ofNat (87 + n)

/-- Go net.hexString: two lowercase hex digits per byte. -/
def hexStr : List Nat → List Char
  | [] => []
  | b :: t => hexDigitChar (b / 16 % 16) :: hexDigitChar (b % 16) :: hexStr t

/-- Go net.appendHex of one 16-bit group: lowercase, leading zeros
dropped, a bare 0 for the zero group. -/
def hexGroup (n : Nat) : List Char :=
  if n = 0 then ['0']
  else
    (if n / 4096 % 16 ≠ 0 then [hexDigitChar (n / 4096 % 16)] else [])
    ++ (if n / 4096 % 16 ≠ 0 ∨ n / 256 % 16 ≠ 0 then [hexDigitChar (n / 256 % 16)] else [])
    ++ (if n / 4096 % 16 ≠ 0 ∨ n / 256 % 16 ≠ 0 ∨ n / 16 % 16 ≠ 0 then
        [hexDigitChar (n / 16 % 16)] else [])
    ++ [hexDigitChar (n % 16)]

/-- Inner scan of Go net.IP.String: the end of the run of zero 16-bit
groups that starts at even byte position i. -/
def zeroRunFrom (p : List Nat) : Nat → Nat → Nat
  | 0, i => i
  | f + 1, i =>
    if i < 16 ∧ p.getD i 1 = 0 ∧ p.getD (i + 1) 1 = 0 then zeroRunFrom p f (i + 2)
    else i

/-- Outer scan of Go net.IP.String: the first strictly-longest run of zero
groups, as a pair of byte positions. -/
def findRuns (p : List Nat) : Nat → Nat → Option (Nat × Nat) → Option (Nat × Nat)
  | 0, _, best => best
  | f + 1, i, best =>
    if 16 ≤ i then best
    else
      match zeroRunFrom p 8 i with
      | j =>
        if i < j ∧ (match best with | none => 0 | some q => q.2 - q.1) < j - i then
          findRuns p f (i + 2) (some (i, j))
        else findRuns p f (i + 2) best

/-- Zero run selected by Go net.IP.String; a run of a single group is not
compressed (the e1-e0 <= 2 reset). -/
def zeroRun (p : List Nat) : Option (Nat × Nat) :=
  match findRuns p 8 0 none with
  | some q => if q.2 - q.1 ≤ 2 then none else some q
  | none => none

/-- Printing loop of Go net.IP.String for a 16-byte address with a chosen
zero run. -/
def v6Fmt (p : List Nat) (e : Option (Nat × Nat)) : Nat → Nat → List Char
  | 0, _ => []
  | f + 1, i =>
    if 16 ≤ i then []
    else
      match e with
      | some q =>
        if i = q.1 then
          ':' :: ':' ::
            (if 16 ≤ q.2 then []
             else hexGroup (p.getD q.2 0 * 256 + p.getD (q.2 + 1) 0) ++ v6Fmt p e f (q.2 + 2))
        else
          (if 0 < i then [':'] else []) ++ hexGroup (p.getD i 0 * 256 + p.getD (i + 1) 0)
            ++ v6Fmt p e f (i + 2)
      | none =>
        (if 0 < i then [':'] else []) ++ hexGroup (p.getD i 0 * 256 + p.getD (i + 1) 0)
          ++ v6Fmt p e f (i + 2)

/-- Go net.IP.String on a byte-list IP. -/
def ipString (ip : List Nat) : String :=
  if ip.length = 0 then "<nil>"
  else
    match to4 ip with
    | some p4 =>
      String.mk (uitoa (p4.getD 0 0) ++ '.' :: uitoa (p4.getD 1 0)
        ++ '.' :: uitoa (p4.getD 2 0) ++ '.' :: uitoa (p4.getD 3 0))
    | none =>
      if ip.length ≠ 16 then String.mk ('?' :: hexStr ip)
      else String.mk (v6Fmt ip (zeroRun ip) 8 0)

/-- Go net.SplitHostPort on character lists. -/
def splitHostPortL (hp : List Char) : Option (List Char × List Char) :=
  match lastIdx hp ':' with
  | none => none
  | some i =>
    if hp.getD 0 ' ' = '[' then
      match firstIdx hp ']' with
      | none => none
      | some endI =>
        if endI + 1 = hp.length then none
        else if endI + 1 = i then
          if (firstIdx (hp.drop 1) '[').isSome then none
          else if (firstIdx (hp.drop (endI + 1)) ']').isSome then none
          else some ((hp.take endI).drop 1, hp.drop (i + 1))
        else none
    else
      if (firstIdx (hp.take i) ':').isSome then none
      else if (firstIdx hp '[').isSome then none
      else if (firstIdx hp ']').isSome then none
      else some (hp.take i, hp.drop (i + 1))

/-- Go net.SplitHostPort; none stands for any of its errors. -/
def splitHostPort (s : String) : Option (String × String) :=
  match splitHostPortL s.toList with
  | none => none
  | some (h, p) => some (String.mk h, String.mk p)

/-- Go net.JoinHostPort: brackets are added when the host contains a
colon. -/
def joinHostPort (host port : String) : String :=
  if (firstIdx host.toList ':').isSome then "[" ++ host ++ "]:" ++ port
  else host ++ ":" ++ port

/-- Go copy(dst[:12], src) on a byte-list destination: min(12, len src)
bytes of src replace the front of dst. -/
def copyPre12 (dst src : List Nat) : List Nat :=
  src.take (min 12 src.length) ++ dst.drop (min 12 src.length)

/-- netx.go lines 216-222 getNAT64Prefix: a plain read of the stored
value, paired with the number of DNS lookups it performs (always zero).
The state is the value the refresh goroutine last stored, none while
nothing was stored. -/
def getNAT64PreV2 (st : Option (List Nat)) : Option (List Nat) × Nat :=
  (st, 0)

/-- Discovery step shared by netx.go lines 38-47 and lines 200-210: among
the looked-up addresses of ipv4only.arpa pick the first whose To4 is nil
and keep its first 12 bytes.  The lookup argument is none when
net.LookupIP returned an error. -/
def selectNAT64 (lookup : Option (List (List Nat))) : Option (List Nat) :=
  match lookup with
  | some ips =>
    match ips.find? (fun ip => (to4 ip).isNone) with
    | some ip => some (ip.take 12)
    | none => none
  | none => none

/-- Lookup branch of netx.go lines 32-49 getNAT64Prefix: probe, store the
found value with a one-hour expiration, return nil and leave the state
alone otherwise.  Result, new state, number of DNS lookups. -/
def v1Fetch (st : Option (List Nat × Nat)) (now : Nat) (lookup : Option (List (List Nat))) :
    Option (List Nat) × Option (List Nat × Nat) × Nat :=
  match selectNAT64 lookup with
  | some pre12 => (some pre12, some (pre12, now + 3600), 1)
  | none => (none, st, 1)

/-- netx.go lines 32-49 getNAT64Prefix: return the held value while it is
fresh, otherwise run the DNS probe.  Result, new state, number of DNS
lookups. -/
def getNAT64PreV1 (st : Option (List Nat × Nat)) (now : Nat)
    (lookup : Option (List (List Nat))) :
    Option (List Nat) × Option (List Nat × Nat) × Nat :=
  match st with
  | some h => if now < h.2 then (some h.1, st, 0) else v1Fetch st now lookup
  | none => v1Fetch st now lookup

/-- netx.go lines 199-214 updateNAT64Prefix: store the selected 12 bytes
on success.  When the probe finds nothing the code runs
nat64Prefix.Store(nil), and storing nil into a sync/atomic.Value panics,
so the outer none models that panic; the outer some carries the state the
store leaves behind. -/
def updateNAT64Pre (lookup : Option (List (List Nat))) : Option (Option (List Nat)) :=
  match selectNAT64 lookup with
  | some pre12 => some (some pre12)
  | none => none

/-- netx.go lines 224-241 convertAddressDNS64: split host and port, leave
anything whose ParseIP.To4 is nil alone, otherwise overwrite the first 12
bytes of the 16-byte form with the cached value and rejoin.  st is the
stored NAT64 state read through getNAT64PreV2. -/
def convertAddressDNS64 (st : Option (List Nat)) (addr : String) : String :=
  match splitHostPort addr with
  | none => addr
  | some (host, port) =>
    if (Option.bind (parseIP host) to4).isNone then addr
    else
      match (getNAT64PreV2 st).1 with
      | none => addr
      | some p =>
        match Option.bind (parseIP host) to16 with
        | none => addr
        | some b16 => joinHostPort (ipString (copyPre12 b16 p)) port

/-- netx.go lines 55-67 convertAddressDNS64: the earlier revision checks
the cached value first and never looks at what ParseIP returned, so when a
value is cached and the host is no IP literal the Go code slices the nil
result of ParseIP(host).To16() with [:12] and panics; the none result
models that panic.  pre is the value its getNAT64Prefix call returns. -/
def convertAddressDNS64V1 (pre : Option (List Nat)) (addr : String) : Option String :=
  match pre with
  | none => some addr
  | some p =>
    match splitHostPort addr with
    | none => some addr
    | some (host, port) =>
      match Option.bind (parseIP host) to16 with
      | none => none
      | some b16 => some (joinHostPort (ipString (copyPre12 b16 p)) port)

/-- The 16-byte value that convertAddressDNS64 (lines 224-241) builds
before rendering it; none when that code path returns the address
unchanged. -/
def synthesizedIPv6 (st : Option (List Nat)) (addr : String) : Option (List Nat) :=
  match splitHostPort addr with
  | none => none
  | some (host, _) =>
    if (Option.bind (parseIP host) to4).isNone then none
    else
      match (getNAT64PreV2 st).1 with
      | none => none
      | some p =>
        match Option.bind (parseIP host) to16 with
        | none => none
        | some b16 => some (copyPre12 b16 p)

/-- Modelled from the spec: the private/reserved-address classification
predicate (RFC1918, loopback, link-local) that the spec names as an
external collaborator; no function of the repository implements it.  It
only restricts hypotheses here. -/
def isReservedIPv4 (ip4 : List Nat) : Bool :=
  match ip4 with
  | [a, b, _, _] =>
    a == 10 || (a == 172 && decide (16 ≤ b) && decide (b ≤ 31)) ||
      (a == 192 && b == 168) || a == 127 || (a == 169 && b == 254)
  | _ => false

/-- Outcome of one underlying dial attempt: a connection (identified by a
number) or an error string. -/
inductive DialResult where
  | ok : Nat → DialResult
  | err : String → DialResult
deriving DecidableEq, Repr

/-- netx.go lines 51-53 isNetworkUnreachable: a non-nil error whose text
contains the fixed substring. -/
def isNetworkUnreachable : DialResult → Bool
  | DialResult.ok _ => false
  | DialResult.err m => containsSub m "network is unreachable"

/-- netx.go line 20 defaultDialTimeout, in milliseconds. -/
def defaultDialTimeout : Nat := 60000

/-!
Dial orchestration.  The registered dial function and the surrounding
network are an oracle res : the result of the k-th underlying dial attempt
made with a given address.  tr abstracts convertAddressDNS64 under the
cache state current at the moment of the call.  Every function returns the
final result and the index after its last attempt, so the difference of
indices counts the underlying attempts a call makes.
-/

/-- netx.go lines 100-109 DialContext (earlier revision): dial, and on a
network-unreachable error dial once more with the re-translated address. -/
def dialContextA (tr : String → String) (res : Nat → String → DialResult)
    (k : Nat) (addr : String) : DialResult × Nat :=
  if isNetworkUnreachable (res k addr) then (res (k + 1) (tr addr), k + 2)
  else (res k addr, k + 1)

/-- netx.go lines 84-96 DialTimeout (earlier revision): call DialContext
and on a network-unreachable result call it once more with the
re-translated address, all under the context derived from the timeout. -/
def dialTimeoutA (tr : String → String) (res : Nat → String → DialResult)
    (t k : Nat) (addr : String) : DialResult × Nat :=
  if isNetworkUnreachable (dialContextA tr res k addr).1 then
    dialContextA tr res (dialContextA tr res k addr).2 (tr addr)
  else dialContextA tr res k addr

/-- netx.go lines 69-77 Dial (earlier revision): DialTimeout with the
default timeout, retried once with a re-translated address on a
network-unreachable result. -/
def dialA (tr : String → String) (res : Nat → String → DialResult)
    (k : Nat) (addr : String) : DialResult × Nat :=
  if isNetworkUnreachable (dialTimeoutA tr res defaultDialTimeout k addr).1 then
    dialTimeoutA tr res defaultDialTimeout (dialTimeoutA tr res defaultDialTimeout k addr).2
      (tr addr)
  else dialTimeoutA tr res defaultDialTimeout k addr

/-- netx.go lines 267-281 DialContext (later revision): translate, then a
single dial. -/
def dialContextB (tr : String → String) (res : Nat → String → DialResult)
    (k : Nat) (addr : String) : DialResult × Nat :=
  (res k (tr addr), k + 1)

/-- netx.go lines 257-263 DialTimeout (later revision): delegate to
DialContext under the derived context. -/
def dialTimeoutB (tr : String → String) (res : Nat → String → DialResult)
    (t k : Nat) (addr : String) : DialResult × Nat :=
  dialContextB tr res k addr

/-- netx.go lines 244-247 Dial (later revision): DialTimeout with the
default timeout. -/
def dialB (tr : String → String) (res : Nat → String → DialResult)
    (k : Nat) (addr : String) : DialResult × Nat :=
  dialTimeoutB tr res defaultDialTimeout k addr

/-- part_002 DialContext: a single dial, no translation. -/
def dialContextP (res : Nat → String → DialResult) (k : Nat) (addr : String) :
    DialResult × Nat :=
  (res k addr, k + 1)

/-- part_002 DialTimeout: delegate to DialContext under the derived
context. -/
def dialTimeoutP (res : Nat → String → DialResult) (t k : Nat) (addr : String) :
    DialResult × Nat :=
  dialContextP res k addr

/-- part_002 Dial, and dialer.go wrapper.Dial: DialTimeout with the
default timeout. -/
def dialP (res : Nat → String → DialResult) (k : Nat) (addr : String) :
    DialResult × Nat :=
  dialTimeoutP res defaultDialTimeout k addr

/-- Events of one DialTimeout call (earlier revision): context creation
with its timeout, the underlying dial attempts tagged with the context
they run under, and the release of the context. -/
inductive DialEv where
  | newCtx : Nat → Nat → DialEv
  | attempt : Nat → String → DialEv
  | cancelCtx : Nat → DialEv
deriving DecidableEq, Repr

/-- netx.go lines 100-109 DialContext with its event trace: every
underlying attempt is recorded against the context it was given. -/
def dialContextATr (tr : String → String) (res : Nat → String → DialResult)
    (ctxId k : Nat) (addr : String) : DialResult × Nat × List DialEv :=
  if isNetworkUnreachable (res k addr) then
    (res (k + 1) (tr addr), k + 2,
      [DialEv.attempt ctxId addr, DialEv.attempt ctxId (tr addr)])
  else (res k addr, k + 1, [DialEv.attempt ctxId addr])

/-- netx.go lines 84-96 DialTimeout with its event trace: one context is
created from the timeout at entry, DialContext runs under it, on a
network-unreachable result DialContext runs once more under the same
context with the re-translated address, and cancel is invoked after the
last attempt. -/
def dialTimeoutATrace (tr : String → String) (res : Nat → String → DialResult)
    (t ctxId k : Nat) (addr : String) : DialResult × Nat × List DialEv :=
  if isNetworkUnreachable (dialContextATr tr res ctxId k addr).1 then
    ((dialContextATr tr res ctxId (dialContextATr tr res ctxId k addr).2.1 (tr addr)).1,
     (dialContextATr tr res ctxId (dialContextATr tr res ctxId k addr).2.1 (tr addr)).2.1,
     DialEv.newCtx ctxId t ::
       ((dialContextATr tr res ctxId k addr).2.2 ++
        (dialContextATr tr res ctxId (dialContextATr tr res ctxId k addr).2.1 (tr addr)).2.2 ++
        [DialEv.cancelCtx ctxId]))
  else
    ((dialContextATr tr res ctxId k addr).1, (dialContextATr tr res ctxId k addr).2.1,
     DialEv.newCtx ctxId t :: (dialContextATr tr res ctxId k addr).2.2
       ++ [DialEv.cancelCtx ctxId])

/-- Is the event a dial attempt under the given context. -/
def isAttemptOf (ctxId : Nat) : DialEv → Bool
  | DialEv.attempt c _ => c == ctxId
  | _ => false

/-- The NAT64 value of the worked examples: the well-known prefix
64:ff9b::/96. -/
def pre64 : List Nat :=
  [0, 100, 255, 155, 0, 0, 0, 0, 0, 0, 0, 0]

/-!  Helper lemmas shared by several claims.  -/

theorem to4_to16 {b ip4 : List Nat} (h : to4 b = some ip4) :
    ∃ b16, to16 b = some b16 ∧ b16.length = 16 ∧ b16.drop 12 = ip4 := by
  unfold to4 at h
  by_cases h1 : b.length = 4
  · rw [if_pos h1] at h
    injection h with h2
    subst h2
    refine ⟨v4InV6Pre ++ b, ?_, ?_, ?_⟩
    · unfold to16
      rw [if_pos h1]
    · simp [v4InV6Pre, h1]
    · have hv : v4InV6Pre.length = 12 := rfl
      rw [← hv, List.drop_left]
  · rw [if_neg h1] at h
    by_cases h2 : b.length = 16 ∧ b.take 10 = List.replicate 10 0 ∧
        b.getD 10 0 = 255 ∧ b.getD 11 0 = 255
    · rw [if_pos h2] at h
      injection h with h3
      subst h3
      refine ⟨b, ?_, h2.1, rfl⟩
      unfold to16
      rw [if_neg h1, if_pos h2.1]
    · rw [if_neg h2] at h
      cases h

theorem copyPre12_len12 {dst p : List Nat} (hp : p.length = 12) :
    copyPre12 dst p = p ++ dst.drop 12 := by
  unfold copyPre12
  have h1 : min 12 p.length = 12 := by omega
  rw [h1, ← hp, List.take_length]

theorem convert_translates {addr host port : String} {b ip4 p : List Nat}
    (hs : splitHostPort addr = some (host, port))
    (hip : parseIP host = some b)
    (h4 : to4 b = some ip4)
    (hp : p.length = 12) :
    convertAddressDNS64 (some p) addr = joinHostPort (ipString (p ++ ip4)) port ∧
    convertAddressDNS64V1 (some p) addr = some (joinHostPort (ipString (p ++ ip4)) port) := by
  obtain ⟨b16, h16, hlen, hd⟩ := to4_to16 h4
  have hcp : copyPre12 b16 p = p ++ ip4 := by rw [copyPre12_len12 hp, hd]
  constructor
  · simp [convertAddressDNS64, hs, hip, h4, h16, getNAT64PreV2, Option.bind, hcp]
  · simp [convertAddressDNS64V1, hs, hip, h16, Option.bind, hcp]

theorem convert_none (addr : String) : convertAddressDNS64 none addr = addr := by
  unfold convertAddressDNS64
  cases hs : splitHostPort addr with
  | none => rfl
  | some pr =>
    obtain ⟨host, port⟩ := pr
    by_cases h : (Option.bind (parseIP host) to4).isNone
    · simp [h]
    · simp [h, getNAT64PreV2]

/-- Claim C1: for an address whose host is a public IPv4 literal and whose
host-port split succeeds, with a cached 12-byte non-zero value the
translation of both revisions yields the synthesized IPv6 address whose
top 96 bits are the cached bytes and whose low 32 bits are the IPv4
address, rejoined with the original port; with nothing cached the address
comes back unchanged. -/
theorem c1_public_ipv4_translation
    (addr host port : String) (b ip4 p : List Nat)
    (hs : splitHostPort addr = some (host, port))
    (hip : parseIP host = some b)
    (h4 : to4 b = some ip4)
    (hpub : isReservedIPv4 ip4 = false)
    (hlen : p.length = 12)
    (hnz : p ≠ List.replicate 12 0) :
    convertAddressDNS64 (some p) addr = joinHostPort (ipString (p ++ ip4)) port ∧
    (p ++ ip4).take 12 = p ∧
    (p ++ ip4).drop 12 = ip4 ∧
    convertAddressDNS64 none addr = addr ∧
    convertAddressDNS64V1 (some p) addr = some (joinHostPort (ipString (p ++ ip4)) port) ∧
    convertAddressDNS64V1 none addr = some addr := by
  have h := convert_translates hs hip h4 hlen
  refine ⟨h.1, ?_, ?_, convert_none addr, h.2, rfl⟩
  · rw [← hlen]
    exact List.take_left p ip4
  · rw [← hlen]
    exact List.drop_left p ip4

/-- Witness for claim C1 at the worked example of the specification. -/
theorem c1_public_ipv4_translation_wit :
    convertAddressDNS64 (some pre64) "93.184.216.34:80" =
      joinHostPort (ipString (pre64 ++ [93, 184, 216, 34])) "80" ∧
    convertAddressDNS64 none "93.184.216.34:80" = "93.184.216.34:80" := by
  have h := c1_public_ipv4_translation "93.184.216.34:80" "93.184.216.34" "80"
    [0, 0, 0, 0, 0, 0, 0, 0, 0, 0, 255, 255, 93, 184, 216, 34] [93, 184, 216, 34] pre64
    (by decide) (by decide) (by decide) (by decide) (by decide) (by decide)
  exact ⟨h.1, h.2.2.2.1⟩

/-- End-to-end example of the specification, checked by evaluation. -/
theorem endToEndExample :
    convertAddressDNS64 (some pre64) "93.184.216.34:80" = "[64:ff9b::5db8:d822]:80" ∧
    convertAddressDNS64 none "93.184.216.34:80" = "93.184.216.34:80" := by decide

/-- Claim C9: the low 32 bits of the synthesized IPv6 value are exactly
the original IPv4 address. -/
theorem c9_roundtrip
    (addr host port : String) (b ip4 p : List Nat)
    (hs : splitHostPort addr = some (host, port))
    (hip : parseIP host = some b)
    (h4 : to4 b = some ip4)
    (hpub : isReservedIPv4 ip4 = false)
    (hlen : p.length = 12)
    (hnz : p ≠ List.replicate 12 0) :
    synthesizedIPv6 (some p) addr = some (p ++ ip4) ∧
    (p ++ ip4).drop 12 = ip4 := by
  obtain ⟨b16, h16, hl16, hd⟩ := to4_to16 h4
  have hcp : copyPre12 b16 p = p ++ ip4 := by rw [copyPre12_len12 hlen, hd]
  constructor
  · simp [synthesizedIPv6, hs, hip, h4, h16, getNAT64PreV2, Option.bind, hcp]
  · rw [← hlen]
    exact List.drop_left p ip4

/-- Witness for claim C9. -/
theorem c9_roundtrip_wit :
    synthesizedIPv6 (some pre64) "93.184.216.34:80" = some (pre64 ++ [93, 184, 216, 34]) ∧
    (pre64 ++ [93, 184, 216, 34]).drop 12 = [93, 184, 216, 34] :=
  c9_roundtrip "93.184.216.34:80" "93.184.216.34" "80"
    [0, 0, 0, 0, 0, 0, 0, 0, 0, 0, 255, 255, 93, 184, 216, 34] [93, 184, 216, 34] pre64
    (by decide) (by decide) (by decide) (by decide) (by decide) (by decide)

/-- Claim C3 fails on the code: with a cached value, the private address
192.168.1.1 is rewritten, because no revision of convertAddressDNS64
contains a private-address check. -/
theorem c3_counterexample :
    isReservedIPv4 [192, 168, 1, 1] = true ∧
    convertAddressDNS64 (some pre64) "192.168.1.1:80" ≠ "192.168.1.1:80" := by decide

/-- Claim C3 amended: a private or reserved IPv4 host is returned
unchanged only while nothing is cached; with a cached 12-byte value it is
translated exactly like a public host. -/
theorem c3_reserved_translated
    (addr host port : String) (b ip4 p : List Nat)
    (hs : splitHostPort addr = some (host, port))
    (hip : parseIP host = some b)
    (h4 : to4 b = some ip4)
    (hres : isReservedIPv4 ip4 = true)
    (hlen : p.length = 12) :
    convertAddressDNS64 (some p) addr = joinHostPort (ipString (p ++ ip4)) port ∧
    convertAddressDNS64 none addr = addr ∧
    convertAddressDNS64V1 (some p) addr = some (joinHostPort (ipString (p ++ ip4)) port) := by
  have h := convert_translates hs hip h4 hlen
  exact ⟨h.1, convert_none addr, h.2⟩

/-- Witness for the amended claim C3. -/
theorem c3_reserved_translated_wit :
    convertAddressDNS64 (some pre64) "192.168.1.1:80" =
      joinHostPort (ipString (pre64 ++ [192, 168, 1, 1])) "80" ∧
    convertAddressDNS64 none "192.168.1.1:80" = "192.168.1.1:80" := by
  have h := c3_reserved_translated "192.168.1.1:80" "192.168.1.1" "80"
    [0, 0, 0, 0, 0, 0, 0, 0, 0, 0, 255, 255, 192, 168, 1, 1] [192, 168, 1, 1] pre64
    (by decide) (by decide) (by decide) (by decide) (by decide)
  exact ⟨h.1, h.2.1⟩

/-- Claim C4 fails on the code: the earlier revision rewrites the IPv6
literal 2001:db8::1 whenever a value is cached, and the later revision
rewrites the IPv4-mapped IPv6 literal ::ffff:93.184.216.34. -/
theorem c4_counterexample :
    convertAddressDNS64V1 (some pre64) "[2001:db8::1]:80" ≠ some "[2001:db8::1]:80" ∧
    convertAddressDNS64 (some pre64) "[::ffff:93.184.216.34]:80" ≠
      "[::ffff:93.184.216.34]:80" := by decide

/-- Claim C4 amended: the later revision returns the address unchanged
exactly when ParseIP(host).To4() is nil, which covers hostnames and IPv6
literals other than IPv4-mapped ones; the earlier revision returns such an
address unchanged only when nothing is cached. -/
theorem c4_non_ipv4_unchanged
    (addr host port : String)
    (hs : splitHostPort addr = some (host, port))
    (h4 : Option.bind (parseIP host) to4 = none) :
    (∀ st, convertAddressDNS64 st addr = addr) ∧
    convertAddressDNS64V1 none addr = some addr := by
  constructor
  · intro st
    simp [convertAddressDNS64, hs, h4]
  · rfl

/-- Witness for the amended claim C4. -/
theorem c4_non_ipv4_unchanged_wit :
    convertAddressDNS64 (some pre64) "[2001:db8::1]:80" = "[2001:db8::1]:80" ∧
    convertAddressDNS64V1 none "[2001:db8::1]:80" = some "[2001:db8::1]:80" := by
  have h := c4_non_ipv4_unchanged "[2001:db8::1]:80" "2001:db8::1" "80"
    (by decide) (by decide)
  exact ⟨h.1 (some pre64), h.2⟩

/-- Claim C2: the earlier revision is not total.  With a cached value and
a hostname destination, ParseIP returns nil, To16 keeps it nil, and the
slice expression ip[:12] panics; the later revision returns the address
unchanged on the same input. -/
theorem c2_hostname_panic :
    convertAddressDNS64V1 (some pre64) "www.google.com:443" = none ∧
    convertAddressDNS64 (some pre64) "www.google.com:443" = "www.google.com:443" ∧
    convertAddressDNS64V1 none "www.google.com:443" = some "www.google.com:443" := by
  decide



/-- Claim C5 fails on the code: a probe answer consisting of the all-zero
IPv6 address makes updateNAT64Prefix store an all-zero 12-byte value, and
translation then does rewrite addresses with it. -/
theorem c5_counterexample :
    updateNAT64Pre (some [List.replicate 16 0]) = some (some (List.replicate 12 0)) ∧
    convertAddressDNS64 (some (List.replicate 12 0)) "1.2.3.4:80" ≠ "1.2.3.4:80" := by
  decide

/-- Claim C5 amended: when a store happens at all it holds exactly the
first 12 bytes of the first non-IPv4-mapped looked-up address, hence 12
bytes whenever the lookup yields 4- or 16-byte addresses; the all-zero
value is not rejected, and the clear-to-absent branch panics instead of
storing (sync/atomic.Value.Store(nil)). -/
theorem c5_stored_length (ips : List (List Nat))
    (hlen : ∀ ip ∈ ips, ip.length = 4 ∨ ip.length = 16) (st : Option (List Nat))
    (hst : updateNAT64Pre (some ips) = some st) :
    ∃ b, st = some b ∧ b.length = 12 := by
  cases hf : ips.find? (fun ip => (to4 ip).isNone) with
  | none =>
    have hsel : selectNAT64 (some ips) = none := by simp [selectNAT64, hf]
    unfold updateNAT64Pre at hst
    rw [hsel] at hst
    exact Option.noConfusion hst
  | some ip =>
    have hsel : selectNAT64 (some ips) = some (ip.take 12) := by simp [selectNAT64, hf]
    unfold updateNAT64Pre at hst
    rw [hsel] at hst
    have hst2 : some (some (ip.take 12)) = some st := hst
    injection hst2 with h1
    have hmem : ip ∈ ips := List.mem_of_find?_eq_some hf
    have hpred : to4 ip = none := by simpa using List.find?_some hf
    have hne4 : ip.length ≠ 4 := by
      intro h4
      unfold to4 at hpred
      rw [if_pos h4] at hpred
      exact Option.noConfusion hpred
    have h16 : ip.length = 16 := by
      rcases hlen ip hmem with h | h
      · exact absurd h hne4
      · exact h
    subst h1
    exact ⟨ip.take 12, rfl, by simp [List.length_take, h16]⟩

/-- Witness for the amended claim C5, on a probe answer holding a mapped
IPv4 address followed by a genuine NAT64-synthesized address. -/
theorem c5_stored_length_wit :
    ∃ b, (some pre64 : Option (List Nat)) = some b ∧ b.length = 12 :=
  c5_stored_length
    [[0, 0, 0, 0, 0, 0, 0, 0, 0, 0, 255, 255, 93, 184, 216, 34],
     [0, 100, 255, 155, 0, 0, 0, 0, 0, 0, 0, 0, 93, 184, 216, 34]]
    (by decide) (some pre64) (by decide)

/-!  Attempt-count lemmas for the dial orchestration of the earlier
revision.  -/

theorem dialContextA_snd (tr : String → String) (res : Nat → String → DialResult)
    (k : Nat) (addr : String) :
    (dialContextA tr res k addr).2 = k + 1 ∨ (dialContextA tr res k addr).2 = k + 2 := by
  cases h : isNetworkUnreachable (res k addr) <;> simp [dialContextA, h]

theorem dialTimeoutA_snd (tr : String → String) (res : Nat → String → DialResult)
    (t k : Nat) (addr : String) :
    k + 1 ≤ (dialTimeoutA tr res t k addr).2 ∧ (dialTimeoutA tr res t k addr).2 ≤ k + 4 := by
  have h1 := dialContextA_snd tr res k addr
  cases h : isNetworkUnreachable (dialContextA tr res k addr).1
  · simp only [dialTimeoutA, h, Bool.false_eq_true, if_false]
    omega
  · simp only [dialTimeoutA, h, if_true]
    have h2 := dialContextA_snd tr res (dialContextA tr res k addr).2 (tr addr)
    omega

theorem dialA_snd (tr : String → String) (res : Nat → String → DialResult)
    (k : Nat) (addr : String) :
    k + 1 ≤ (dialA tr res k addr).2 ∧ (dialA tr res k addr).2 ≤ k + 8 := by
  have h1 := dialTimeoutA_snd tr res defaultDialTimeout k addr
  cases h : isNetworkUnreachable (dialTimeoutA tr res defaultDialTimeout k addr).1
  · simp only [dialA, h, Bool.false_eq_true, if_false]
    omega
  · simp only [dialA, h, if_true]
    have h2 := dialTimeoutA_snd tr res defaultDialTimeout
      (dialTimeoutA tr res defaultDialTimeout k addr).2 (tr addr)
    omega

/-- Claim C6 fails on the code: against a dial function that always
reports network unreachable, one call of the earlier revision's Dial makes
eight underlying attempts, because Dial, DialTimeout and DialContext each
layer their own retry. -/
theorem c6_counterexample :
    (dialA (fun a => a) (fun _ _ => DialResult.err "connect: network is unreachable") 0
      "93.184.216.34:80").2 = 8 ∧
    ¬ (dialA (fun a => a) (fun _ _ => DialResult.err "connect: network is unreachable") 0
      "93.184.216.34:80").2 ≤ 2 := by decide

/-- Claim C6 amended: DialContext makes at most two underlying attempts,
DialTimeout at most four, Dial at most eight, and every entry point makes
exactly one attempt when the first attempt does not report network
unreachable; the later revision always makes exactly one attempt. -/
theorem c6_attempt_bounds (tr : String → String) (res : Nat → String → DialResult)
    (t k : Nat) (addr : String) :
    (dialContextA tr res k addr).2 ≤ k + 2 ∧
    (dialTimeoutA tr res t k addr).2 ≤ k + 4 ∧
    (dialA tr res k addr).2 ≤ k + 8 ∧
    (isNetworkUnreachable (res k addr) = false →
      (dialContextA tr res k addr).2 = k + 1 ∧
      (dialTimeoutA tr res t k addr).2 = k + 1 ∧
      (dialA tr res k addr).2 = k + 1) ∧
    (dialContextB tr res k addr).2 = k + 1 ∧
    (dialTimeoutB tr res t k addr).2 = k + 1 ∧
    (dialB tr res k addr).2 = k + 1 := by
  refine ⟨?_, (dialTimeoutA_snd tr res t k addr).2, (dialA_snd tr res k addr).2,
    ?_, rfl, rfl, rfl⟩
  · rcases dialContextA_snd tr res k addr with h | h <;> omega
  · intro h
    have hc : dialContextA tr res k addr = (res k addr, k + 1) := by
      simp [dialContextA, h]
    have ht : dialTimeoutA tr res t k addr = (res k addr, k + 1) := by
      simp [dialTimeoutA, hc, h]
    have htD : dialTimeoutA tr res defaultDialTimeout k addr = (res k addr, k + 1) := by
      simp [dialTimeoutA, hc, h]
    have ha : dialA tr res k addr = (res k addr, k + 1) := by
      simp [dialA, htD, h]
    exact ⟨by rw [hc], by rw [ht], by rw [ha]⟩

/-- Witness for the amended claim C6, against a dial function that
succeeds at once. -/
theorem c6_attempt_bounds_wit :
    (dialA (fun a => a) (fun _ _ => DialResult.ok 0) 0 "93.184.216.34:80").2 ≤ 8 ∧
    (dialA (fun a => a) (fun _ _ => DialResult.ok 0) 0 "93.184.216.34:80").2 = 1 := by
  have h := c6_attempt_bounds (fun a => a) (fun _ _ => DialResult.ok 0) 5 0 "93.184.216.34:80"
  exact ⟨h.2.2.1, (h.2.2.2.1 (by decide)).2.2⟩

/-- Claim C7 fails on the code: the lines 32-49 getNAT64Prefix performs a
DNS lookup both when nothing is cached and when the cached entry has
expired. -/
theorem c7_counterexample :
    (getNAT64PreV1 none 0 (some [])).2.2 = 1 ∧
    (getNAT64PreV1 (some ([1], 5)) 10 none).2.2 = 1 := by decide

theorem v1Fetch_snd (st : Option (List Nat × Nat)) (now : Nat)
    (lookup : Option (List (List Nat))) : (v1Fetch st now lookup).2.2 = 1 := by
  unfold v1Fetch
  cases h : selectNAT64 lookup <;> simp

/-- Claim C7 amended: the lines 216-222 getNAT64Prefix is a plain read of
the stored value and performs no lookup for any state; the lines 32-49
variant returns without a lookup only while the cached entry is fresh, and
performs exactly one DNS lookup when the cache is empty or expired. -/
theorem c7_get_no_io (st : Option (List Nat)) (p12 : List Nat) (e now : Nat)
    (lookup : Option (List (List Nat))) (hfresh : now < e) :
    getNAT64PreV2 st = (st, 0) ∧
    getNAT64PreV1 (some (p12, e)) now lookup = (some p12, some (p12, e), 0) ∧
    (getNAT64PreV1 none now lookup).2.2 = 1 ∧
    (∀ q eq, eq ≤ now → (getNAT64PreV1 (some (q, eq)) now lookup).2.2 = 1) := by
  refine ⟨rfl, ?_, ?_, ?_⟩
  · simp [getNAT64PreV1, hfresh]
  · simp only [getNAT64PreV1]
    exact v1Fetch_snd none now lookup
  · intro q eq hle
    have hnf : ¬ now < eq := by omega
    simp only [getNAT64PreV1, if_neg hnf]
    exact v1Fetch_snd (some (q, eq)) now lookup

/-- Witness for the amended claim C7. -/
theorem c7_get_no_io_wit :
    getNAT64PreV2 (some pre64) = (some pre64, 0) ∧
    getNAT64PreV1 (some (pre64, 10)) 3 none = (some pre64, some (pre64, 10), 0) ∧
    (getNAT64PreV1 none 3 none).2.2 = 1 := by
  have h := c7_get_no_io (some pre64) pre64 10 3 none (by decide)
  exact ⟨h.1, h.2.1, h.2.2.1⟩

/-- Claim C8 fails on the code: in the earlier revision Dial is not a
plain call of DialTimeout with the default timeout; when that call
reports network unreachable Dial retries and can succeed where DialTimeout
alone failed. -/
theorem c8_counterexample :
    (dialA (fun a => a)
      (fun k _ => if k < 4 then DialResult.err "network is unreachable" else DialResult.ok 1)
      0 "93.184.216.34:80").1 = DialResult.ok 1 ∧
    (dialTimeoutA (fun a => a)
      (fun k _ => if k < 4 then DialResult.err "network is unreachable" else DialResult.ok 1)
      defaultDialTimeout 0 "93.184.216.34:80").1 =
      DialResult.err "network is unreachable" := by decide

/-- Claim C8 amended: the later revision's Dial and the part_002 Dial are
exactly DialTimeout with the one-minute default, and the earlier
revision's Dial agrees with DialTimeout under the default timeout whenever
that call does not report network unreachable. -/
theorem c8_dial_delegates (tr : String → String) (res : Nat → String → DialResult)
    (k : Nat) (addr : String)
    (h : isNetworkUnreachable (dialTimeoutA tr res defaultDialTimeout k addr).1 = false) :
    dialA tr res k addr = dialTimeoutA tr res defaultDialTimeout k addr ∧
    dialB tr res k addr = dialTimeoutB tr res defaultDialTimeout k addr ∧
    dialP res k addr = dialTimeoutP res defaultDialTimeout k addr := by
  exact ⟨by simp [dialA, h], rfl, rfl⟩

/-- Witness for the amended claim C8. -/
theorem c8_dial_delegates_wit :
    dialA (fun a => a) (fun _ _ => DialResult.ok 0) 0 "93.184.216.34:80" =
      dialTimeoutA (fun a => a) (fun _ _ => DialResult.ok 0) defaultDialTimeout 0
        "93.184.216.34:80" ∧
    dialP (fun _ _ => DialResult.ok 0) 0 "93.184.216.34:80" =
      dialTimeoutP (fun _ _ => DialResult.ok 0) defaultDialTimeout 0 "93.184.216.34:80" := by
  have h := c8_dial_delegates (fun a => a) (fun _ _ => DialResult.ok 0) 0 "93.184.216.34:80"
    (by decide)
  exact ⟨h.1, h.2.2⟩

/-- Claim C10: in the retrying DialTimeout one context is created from the
given timeout at entry, every underlying attempt of the call — the first
DialContext and the optional retry with the re-translated address — runs
under that same context, and the cancel of that context is the last event,
after the final attempt; between one and four attempts occur. -/
theorem c10_retry_same_ctx (tr : String → String) (res : Nat → String → DialResult)
    (t ctxId k : Nat) (addr : String) :
    ∃ mids : List DialEv,
      (dialTimeoutATrace tr res t ctxId k addr).2.2 =
        DialEv.newCtx ctxId t :: mids ++ [DialEv.cancelCtx ctxId] ∧
      mids.all (isAttemptOf ctxId) = true ∧
      1 ≤ mids.length ∧ mids.length ≤ 4 := by
  cases h1 : isNetworkUnreachable (res k addr) with
  | false =>
    refine ⟨[DialEv.attempt ctxId addr], ?_, ?_, ?_, ?_⟩ <;>
      simp [dialTimeoutATrace, dialContextATr, h1, isAttemptOf]
  | true =>
    cases h2 : isNetworkUnreachable (res (k + 1) (tr addr)) with
    | false =>
      refine ⟨[DialEv.attempt ctxId addr, DialEv.attempt ctxId (tr addr)], ?_, ?_, ?_, ?_⟩ <;>
        simp [dialTimeoutATrace, dialContextATr, h1, h2, isAttemptOf]
    | true =>
      cases h3 : isNetworkUnreachable (res (k + 2) (tr addr)) with
      | false =>
        refine ⟨[DialEv.attempt ctxId addr, DialEv.attempt ctxId (tr addr),
          DialEv.attempt ctxId (tr addr)], ?_, ?_, ?_, ?_⟩ <;>
          simp [dialTimeoutATrace, dialContextATr, h1, h2, h3, isAttemptOf]
      | true =>
        refine ⟨[DialEv.attempt ctxId addr, DialEv.attempt ctxId (tr addr),
          DialEv.attempt ctxId (tr addr), DialEv.attempt ctxId (tr (tr addr))],
          ?_, ?_, ?_, ?_⟩ <;>
          simp [dialTimeoutATrace, dialContextATr, h1, h2, h3, isAttemptOf]
